import Mathlib

/-!
Verification of the knowledge-test lifecycle of `routes/knowledgeTests.js`
(create via generator, defensive JSON extraction, normalization, grading,
remediation).  The JavaScript handlers are shallowly embedded as pure Lean
functions; the external generative collaborator and the JavaScript runtime
JSON parser are abstracted as function parameters, since their outputs are
inputs to the code under verification.
-/

namespace KT

/-- JSON-like values, the shape of data produced by the runtime JSON parser
and consumed by the create/justify handlers.  JavaScript numbers are modelled
as integers (all indices and counts in this subsystem are integral); the
runtime's `undefined` and `null` are merged into `Json.null`, which is falsy
and is neither a number, a string, nor an array, exactly like both. -/
inductive Json where
  | null : Json
  | bool (b : Bool) : Json
  | num (n : Int) : Json
  | str (s : String) : Json
  | arr (elems : List Json) : Json
  | obj (fields : List (String × Json)) : Json

/-- JavaScript truthiness of a JSON value: `null`/`undefined`, `false`, `0`
and `""` are falsy; every array and object is truthy. -/
def Json.truthy : Json → Bool
  | Json.null => false
  | Json.bool b => b
  | Json.num n => decide (n ≠ 0)
  | Json.str s => decide (s ≠ "")
  | Json.arr _ => true
  | Json.obj _ => true

/-- Property access `v.k`: on an object, the value of the first field named
`k` (or `Json.null` when absent); on every other value, `Json.null`
(modelling `undefined`; a `null` receiver would throw in JavaScript, which
none of the verified claims exercise). -/
def Json.getField : Json → String → Json
  | Json.obj fields, k =>
      match fields.find? (fun f => f.1 == k) with
      | some f => f.2
      | none => Json.null
  | _, _ => Json.null

/-- The JavaScript `a || b` on JSON values: `a` when truthy, else `b`. -/
def jsOr (a b : Json) : Json := if a.truthy then a else b

/-! ### The defensive extraction of `safelyParseJsonFromText` (lines 35-51)

The handler massages the collaborator's raw text with
`replace(backtick-fence regex, "")`, `replace(bare triple-backtick, "")`,
`trim()`, a slice from the first `\x7b` or `[`, and a slice up to the last
`\x7d` or `]`, before handing the candidate to the runtime JSON parser.
Strings are processed as character lists. -/

/-- After a matched triple backtick, the fence regex `(?:json)?\n?` greedily
consumes an optional `json` and then an optional newline. -/
def fenceTail (l : List Char) : List Char :=
  let l1 := if l.take 4 = ['j', 's', 'o', 'n'] then l.drop 4 else l
  if l1.take 1 = ['\n'] then l1.drop 1 else l1

/-- Left-to-right, non-overlapping removal of every match of the fence
regex (triple backtick, optional `json`, optional newline), as done by the
first global `replace` of line 38. -/
def removeFences : List Char → List Char
  | [] => []
  | c :: rest =>
    if c = '\x60' ∧ rest.take 2 = ['\x60', '\x60'] then
      removeFences (fenceTail (rest.drop 2))
    else
      c :: removeFences rest
termination_by l => l.length
decreasing_by
  · have h1 : (fenceTail (rest.drop 2)).length ≤ (rest.drop 2).length := by
      unfold fenceTail
      split <;> dsimp only <;> split <;> simp [List.length_drop] <;> omega
    have h2 : (rest.drop 2).length ≤ rest.length := by
      simp [List.length_drop]
    simp only [List.length_cons]
    omega
  · simp only [List.length_cons]
    omega

/-- Removal of every bare triple backtick, the second global `replace` of
line 38 (a no-op after the first pass, kept for fidelity). -/
def removeTriple : List Char → List Char
  | [] => []
  | c :: rest =>
    if c = '\x60' ∧ rest.take 2 = ['\x60', '\x60'] then
      removeTriple (rest.drop 2)
    else
      c :: removeTriple rest
termination_by l => l.length
decreasing_by
  · have h2 : (rest.drop 2).length ≤ rest.length := by
      simp [List.length_drop]
    simp only [List.length_cons]
    omega
  · simp only [List.length_cons]
    omega

/-- `String.prototype.trim`: drop whitespace from both ends (modelled with
the core whitespace set: space, tab, carriage return, newline). -/
def jsTrim (l : List Char) : List Char :=
  ((l.dropWhile Char.isWhitespace).reverse.dropWhile Char.isWhitespace).reverse

/-- Characters matched by the regex class of line 40. -/
def isOpenBracket (c : Char) : Bool := c == '\x7b' || c == '['

/-- Characters whose last index line 43 takes the maximum over. -/
def isCloseBracket (c : Char) : Bool := c == '\x7d' || c == ']'

/-- Lines 40-41: if some opening brace or bracket occurs, slice from the
first one; otherwise leave the text unchanged. -/
def sliceFromFirstOpen (l : List Char) : List Char :=
  if l.any isOpenBracket then l.dropWhile (fun c => !isOpenBracket c) else l

/-- Lines 43-44: if some closing brace or bracket occurs, slice up to and
including the last one; otherwise leave the text unchanged. -/
def sliceToLastClose (l : List Char) : List Char :=
  if l.any isCloseBracket then
    (l.reverse.dropWhile (fun c => !isCloseBracket c)).reverse
  else l

/-- The full candidate extraction applied to the raw response before the
runtime JSON parse: fence removal, trim, slice from the first opening
bracket, slice to the last closing bracket. -/
def extractCandidate (s : String) : String :=
  String.mk (sliceToLastClose (sliceFromFirstOpen (jsTrim (removeTriple (removeFences s.toList)))))

/-- `safelyParseJsonFromText` (lines 35-51), parameterized by the runtime
JSON parser `p` (`none` models a parse exception, caught and turned into
`null` by the handler; the fallback branch of line 49 also returns `null`).
An empty input is falsy and returns `null` immediately. -/
def safelyParseJsonFromText (p : String → Option Json) (text : String) : Option Json :=
  if text = "" then none else p (extractCandidate text)

/-! ### Create handler: question normalization and storage (lines 86-153) -/

/-- A question as stored by the create handler.  The handler builds a plain
object whose fields come from the candidate JSON unchecked, so every field
keeps the JSON type. -/
structure NormQuestion where
  id : Json
  prompt : Json
  choices : Json
  correctIndex : Json

/-- The fallback identifier of line 126; the time-dependent tag
`Date.now().toString(36)` is a parameter. -/
def fallbackId (nowTag : String) (i : Nat) : String :=
  "q_" ++ nowTag ++ "_" ++ toString i

/-- Normalization of one candidate question (lines 125-130): fallback id
when `id` is falsy, alias `question` for `prompt`, alias `options` for
`choices`, and `correctIndex` kept exactly when it is a number, coerced to
`0` otherwise.  No range check is performed. -/
def normalizeQuestion (nowTag : String) (i : Nat) (q : Json) : NormQuestion :=
  { id := jsOr (q.getField ("id")) (Json.str (fallbackId nowTag i)),
    prompt := jsOr (q.getField ("prompt")) (jsOr (q.getField ("question")) (Json.str "")),
    choices := jsOr (q.getField ("choices")) (jsOr (q.getField ("options")) (Json.arr [])),
    correctIndex :=
      match q.getField ("correctIndex") with
      | Json.num n => Json.num n
      | _ => Json.num 0 }

/-- `parsed.questions.map((q, i) => ...)` with the running index. -/
def normalizeQuestionsFrom (nowTag : String) (i : Nat) : List Json → List NormQuestion
  | [] => []
  | q :: rest => normalizeQuestion nowTag i q :: normalizeQuestionsFrom nowTag (i + 1) rest

def normalizeQuestions (nowTag : String) (qs : List Json) : List NormQuestion :=
  normalizeQuestionsFrom nowTag 0 qs

/-- A stored test as written by the create handler (lines 136-143); the
submission history starts empty. -/
structure GenTest where
  id : String
  name : String
  createdAt : String
  sourceText : String
  questions : List NormQuestion

/-- The 201 response body of line 148. -/
structure CreateResponse where
  id : String
  name : String
  createdAt : String
  questionCount : Nat

/-- Failure modes of the create handler: missing `name`/`text` (line 89,
status 400), a collaborator failure (lines 104-110, status 500), and an
unusable response (lines 118-122, status 500, the generation parse
error). -/
inductive CreateError where
  | missingFields : CreateError
  | generationFailed : CreateError
  | parseError : CreateError

/-- The create handler (lines 86-153).  `p` is the runtime JSON parser,
`gen` the collaborator's raw text response (`none` models the request to it
throwing), `idTag`/`nowTag`/`createdAt` the time-dependent fresh values of
lines 126, 134 and 135, and `store` the `tests` array of the data file.
The requested count appears only inside the prompt sent to the collaborator
and does not influence the stored result. -/
def createTest (p : String → Option Json) (gen : Option String)
    (idTag nowTag createdAt : String) (store : List GenTest)
    (name text : String) : Except CreateError (List GenTest × CreateResponse) :=
  if name = "" ∨ text = "" then Except.error CreateError.missingFields
  else
    match gen with
    | none => Except.error CreateError.generationFailed
    | some rawOut =>
      match safelyParseJsonFromText p rawOut with
      | none => Except.error CreateError.parseError
      | some parsed =>
        if parsed.truthy = false then Except.error CreateError.parseError
        else
          match parsed.getField ("questions") with
          | Json.arr qs =>
            let questions := normalizeQuestions nowTag qs
            let newTest : GenTest :=
              { id := "test_" ++ idTag, name := name, createdAt := createdAt,
                sourceText := text, questions := questions }
            Except.ok (store ++ [newTest],
              { id := newTest.id, name := name, createdAt := createdAt,
                questionCount := questions.length })
          | _ => Except.error CreateError.parseError

/-! ### Submit handler: grading and submission storage (lines 170-215)

The grading layer works on the common stored shape (string question ids,
integer indices), matching the data produced by the create handler and the
client: `selectedIndex`/`correctIndex` are `Option Int`, with `none`
modelling an absent or non-numeric value, exactly what the handler's
`typeof x === "number"` guards test for. -/

/-- One element of the request's `answers` array.  `correct` models a
caller-supplied correctness flag riding along in the entry; the handler
reads only `qId` and `selectedIndex` (line 180). -/
structure SubmitAnswer where
  qId : String
  selectedIndex : Option Int
  correct : Option Bool
deriving DecidableEq

/-- The submit request body.  `correct` and `score` model caller-supplied
extra body fields; the handler destructures only `userId` and `answers`
(line 173). -/
structure SubmitRequest where
  userId : Option String
  answers : List SubmitAnswer
  correct : Option Bool
  score : Option Int
deriving DecidableEq

/-- One graded per-question record (lines 186-192). -/
structure ResultAnswer where
  qId : String
  prompt : String
  selectedIndex : Int
  correctIndex : Int
  correct : Bool
deriving DecidableEq

/-- A stored question as the submit handler reads it. -/
structure Question where
  id : String
  prompt : String
  choices : List String
  correctIndex : Option Int
deriving DecidableEq

/-- A stored submission (lines 198-204); `id` and `timestamp` are the fresh
values of lines 199 and 201. -/
structure Submission where
  id : String
  userId : Option String
  timestamp : String
  score : Nat
  answers : List ResultAnswer
deriving DecidableEq

/-- A stored test as the submit and justify handlers read it. -/
structure Test where
  id : String
  name : String
  questions : List Question
  results : List Submission
deriving DecidableEq

/-- One step of the `reduce` of line 180: `acc[a.qId] = a.selectedIndex`,
overwriting any earlier binding of the same key. -/
def answersMapStep (acc : String → Option Int) (a : SubmitAnswer) : String → Option Int :=
  fun k => if k = a.qId then a.selectedIndex else acc k

def answersMapFrom (init : String → Option Int) (l : List SubmitAnswer) : String → Option Int :=
  l.foldl answersMapStep init

/-- The `answersMap` of line 180: the request's answers folded left to
right into a map with overwrite, starting from the empty object. -/
def answersMap (l : List SubmitAnswer) : String → Option Int :=
  answersMapFrom (fun _ => none) l

/-- Grading of one question (lines 183-192): the looked-up selection when
it is a number, else the `-1` sentinel; the stored `correctIndex` when it
is a number, else `0`; `correct` by strict equality. -/
def gradeQuestion (amap : String → Option Int) (q : Question) : ResultAnswer :=
  let selected : Int := (amap q.id).getD (-1)
  let cIdx : Int := q.correctIndex.getD 0
  { qId := q.id, prompt := q.prompt, selectedIndex := selected,
    correctIndex := cIdx, correct := decide (selected = cIdx) }

/-- The `resultAnswers` array of lines 182-193: one graded record per
stored question, in the test's question order. -/
def resultAnswers (questions : List Question) (answers : List SubmitAnswer) : List ResultAnswer :=
  questions.map (gradeQuestion (answersMap answers))

/-- `correctCount` of line 195. -/
def correctCount (rs : List ResultAnswer) : Nat :=
  (rs.filter (fun r => r.correct)).length

/-- Line 196, `Math.round((correctCount / Math.max(1, questions.length)) * 100)`,
embedded in exact integer arithmetic: with `m = max 1 qc`, the value
`round(100 * cc / m)` with ties rounded up equals `(200 * cc + m) / (2 * m)`
in natural division.  Theorem `score_formula` below proves this agrees with
the rounded rational. -/
def computeScore (cc qc : Nat) : Nat :=
  (200 * cc + max 1 qc) / (2 * max 1 qc)

/-- The submission score as a function of the stored questions and the
submitted answers. -/
def score (questions : List Question) (answers : List SubmitAnswer) : Nat :=
  computeScore (correctCount (resultAnswers questions answers)) questions.length

/-- The submission object of lines 198-204, for fresh `subId`/`ts`. -/
def mkSubmission (subId ts : String) (req : SubmitRequest) (questions : List Question) : Submission :=
  { id := subId, userId := req.userId, timestamp := ts,
    score := score questions req.answers,
    answers := resultAnswers questions req.answers }

/-- `(data.tests || []).find((t) => String(t.id) === String(id))`. -/
def findTest (tests : List Test) (id : String) : Option Test :=
  tests.find? (fun t => t.id == id)

/-- The write-back of lines 206-208: the submission is pushed onto the
`results` of the first test whose id matches (the one `find` returned). -/
def appendResult (tests : List Test) (id : String) (sub : Submission) : List Test :=
  match tests with
  | [] => []
  | t :: rest =>
    if t.id = id then { t with results := t.results ++ [sub] } :: rest
    else t :: appendResult rest id sub

inductive SubmitError where
  | notFound : SubmitError
deriving DecidableEq

/-- The submit handler (lines 170-215): look up the test, grade, append the
submission, return the submission together with its score (line 210). -/
def submit (tests : List Test) (testId : String) (subId ts : String)
    (req : SubmitRequest) : Except SubmitError (List Test × Submission × Nat) :=
  match findTest tests testId with
  | none => Except.error SubmitError.notFound
  | some test =>
    let sub := mkSubmission subId ts req test.questions
    Except.ok (appendResult tests testId sub, sub, sub.score)

/-! ### Justify handler (lines 218-267) -/

inductive JustifyError where
  | invalidArgument : JustifyError
  | notFound : JustifyError
  | generationFailed : JustifyError
  | parseError : JustifyError
deriving DecidableEq

/-- Line 228: the stored questions whose id occurs in the request's `qIds`;
only these appear in the prompt sent to the collaborator. -/
def selectedQuestions (test : Test) (qIds : List String) : List Question :=
  test.questions.filter (fun q => qIds.contains q.id)

/-- Lines 252-259: defensive parse of the collaborator's response and
extraction of its `justifications` array, which is returned verbatim
(line 262) without any filtering against the stored questions. -/
def parseJustifications (p : String → Option Json) (raw : String) : Except JustifyError (List Json) :=
  match safelyParseJsonFromText p raw with
  | none => Except.error JustifyError.parseError
  | some parsed =>
    if parsed.truthy = false then Except.error JustifyError.parseError
    else
      match parsed.getField ("justifications") with
      | Json.arr js => Except.ok js
      | _ => Except.error JustifyError.parseError

/-- The justify handler (lines 218-267).  The collaborator call of lines
230-250 is abstracted as `gen`, a function of the selected questions shown
in the prompt (`none` models the request to it throwing). -/
def justify (p : String → Option Json) (gen : List Question → Option String)
    (tests : List Test) (testId : String) (qIds : List String) :
    Except JustifyError (List Json) :=
  if qIds.isEmpty then Except.error JustifyError.invalidArgument
  else
    match findTest tests testId with
    | none => Except.error JustifyError.notFound
    | some test =>
      match gen (selectedQuestions test qIds) with
      | none => Except.error JustifyError.generationFailed
      | some raw => parseJustifications p raw

/-! ### Concrete fixtures used to instantiate the theorems below -/

/-- The two-question test of the concrete scenario in the specification:
correct indices 1 and 0. -/
def sampleQ1 : Question :=
  { id := "q1", prompt := "P1", choices := ["a", "b"], correctIndex := some 1 }

def sampleQ2 : Question :=
  { id := "q2", prompt := "P2", choices := ["a", "b"], correctIndex := some 0 }

def sampleTest : Test :=
  { id := "t1", name := "T", questions := [sampleQ1, sampleQ2], results := [] }

/-- Submit request selecting choice 1 on both questions. -/
def sampleReq : SubmitRequest :=
  { userId := none,
    answers := [{ qId := "q1", selectedIndex := some 1, correct := none },
                { qId := "q2", selectedIndex := some 1, correct := none }],
    correct := none, score := none }

/-- The same selections as `sampleReq`, but with caller-supplied `correct`
and `score` fields riding along. -/
def spoofReq : SubmitRequest :=
  { userId := none,
    answers := [{ qId := "q1", selectedIndex := some 1, correct := some true },
                { qId := "q2", selectedIndex := some 1, correct := some true }],
    correct := some true, score := some 100 }

def sampleSub : Submission := mkSubmission ("s1") ("ts1") sampleReq sampleTest.questions

def sampleStore1 : List Test := appendResult [sampleTest] ("t1") sampleSub

def sampleSub2 : Submission := mkSubmission ("s2") ("ts2") sampleReq sampleTest.questions

def sampleStore2 : List Test := appendResult sampleStore1 ("t1") sampleSub2

/-- A storable question whose `correctIndex` is the number `-1`, as the
lenient create normalization will persist for generator output
`correctIndex: -1`. -/
def badQ : Question :=
  { id := "q1", prompt := "p", choices := ["a", "b"], correctIndex := some (-1) }

def badTest : Test := { id := "t1", name := "n", questions := [badQ], results := [] }

def emptyReq : SubmitRequest := { userId := none, answers := [], correct := none, score := none }

/-- A runtime parser that always fails. -/
def pNone : String → Option Json := fun _ => none

/-- A runtime parser returning a JSON object with an empty questions array. -/
def pEmptyQuestions : String → Option Json :=
  fun _ => some (Json.obj [("questions", Json.arr [])])

/-- The candidate question of the specification's lenient-parse scenario:
text under the `question` alias, two choices, out-of-range `correctIndex`
5, no id. -/
def aliasCand : Json :=
  Json.obj [("question", Json.str "Q1"),
            ("choices", Json.arr [Json.str "a", Json.str "b"]),
            ("correctIndex", Json.num 5)]

def c7Q : Question :=
  { id := "q1", prompt := "P", choices := ["a", "b"], correctIndex := some 0 }

def c7Test : Test := { id := "t1", name := "T", questions := [c7Q], results := [] }

/-- A qIds request containing one valid id and one stale id. -/
def qIdsC7 : List String := ["q1", "ghost"]

/-- A justification entry for an id not present in `c7Test`. -/
def ghostJust : Json :=
  Json.obj [("qId", Json.str "ghost"), ("explanation", Json.str "e")]

/-- A runtime parser modelling a collaborator response that justifies the
stale id. -/
def pGhost : String → Option Json :=
  fun _ => some (Json.obj [("justifications", Json.arr [ghostJust])])

/-- A justification entry for the valid id of `c7Test`. -/
def validJust : Json :=
  Json.obj [("qId", Json.str "q1"), ("explanation", Json.str "ok")]

def pValid : String → Option Json :=
  fun _ => some (Json.obj [("justifications", Json.arr [validJust])])

/-- A collaborator that always answers with some text. -/
def genSome : List Question → Option String := fun _ => some ("resp")

def questionIdJson (q : Question) : Json := Json.str q.id

/-- Two answer entries for the same question id with different selections. -/
def dupA : SubmitAnswer := { qId := "q1", selectedIndex := some 0, correct := none }

def dupB : SubmitAnswer := { qId := "q1", selectedIndex := some 1, correct := none }

/-! ### Helper lemmas about the answers map and the store -/

theorem answersMapFrom_append (init : String → Option Int) (xs ys : List SubmitAnswer) :
    answersMapFrom init (xs ++ ys) = answersMapFrom (answersMapFrom init xs) ys := by
  simp [answersMapFrom, List.foldl_append]

theorem answersMapFrom_no_key (l : List SubmitAnswer) (init : String → Option Int)
    (k : String) (h : ∀ b ∈ l, b.qId ≠ k) : answersMapFrom init l k = init k := by
  induction l generalizing init with
  | nil => rfl
  | cons a rest ih =>
    have ha : a.qId ≠ k := h a (List.mem_cons_self a rest)
    have hrest : ∀ b ∈ rest, b.qId ≠ k := fun b hb => h b (List.mem_cons_of_mem a hb)
    have hk : k ≠ a.qId := fun hk => ha hk.symm
    show answersMapFrom (answersMapStep init a) rest k = init k
    rw [ih _ hrest]
    simp [answersMapStep, hk]

theorem answersMapFrom_agree (l : List SubmitAnswer) (init1 init2 : String → Option Int)
    (k : String) (h : init1 k = init2 k) :
    answersMapFrom init1 l k = answersMapFrom init2 l k := by
  induction l generalizing init1 init2 with
  | nil => exact h
  | cons a rest ih =>
    show answersMapFrom (answersMapStep init1 a) rest k =
      answersMapFrom (answersMapStep init2 a) rest k
    apply ih
    simp only [answersMapStep]
    split
    · rfl
    · exact h

theorem answersMapFrom_proj (l1 l2 : List SubmitAnswer) (init : String → Option Int)
    (h : l1.map (fun a => (a.qId, a.selectedIndex)) = l2.map (fun a => (a.qId, a.selectedIndex))) :
    answersMapFrom init l1 = answersMapFrom init l2 := by
  induction l1 generalizing l2 init with
  | nil =>
    cases l2 with
    | nil => rfl
    | cons b l2 => simp at h
  | cons a l1 ih =>
    cases l2 with
    | nil => simp at h
    | cons b l2 =>
      simp only [List.map_cons, List.cons.injEq, Prod.mk.injEq] at h
      obtain ⟨⟨hq, hs⟩, ht⟩ := h
      show answersMapFrom (answersMapStep init a) l1 = answersMapFrom (answersMapStep init b) l2
      have hstep : answersMapStep init a = answersMapStep init b := by
        funext k
        simp [answersMapStep, hq, hs]
      rw [hstep]
      exact ih l2 (answersMapStep init b) ht

theorem gradeQuestion_congr (amap1 amap2 : String → Option Int) (q : Question)
    (h : amap1 q.id = amap2 q.id) : gradeQuestion amap1 q = gradeQuestion amap2 q := by
  simp [gradeQuestion, h]

theorem resultAnswers_congr (questions : List Question) (a1 a2 : List SubmitAnswer)
    (h : ∀ q ∈ questions, answersMap a1 q.id = answersMap a2 q.id) :
    resultAnswers questions a1 = resultAnswers questions a2 :=
  List.map_congr_left (fun q hq => gradeQuestion_congr _ _ q (h q hq))

theorem answersMapFrom_filter_ne (xs : List SubmitAnswer) (init : String → Option Int)
    (key k : String) (h : k ≠ key) :
    answersMapFrom init (xs.filter (fun b => b.qId != key)) k = answersMapFrom init xs k := by
  induction xs generalizing init with
  | nil => rfl
  | cons b rest ih =>
    by_cases hb : b.qId = key
    · rw [List.filter_cons]
      have hfb : (b.qId != key) = false := by simp [hb]
      simp only [hfb, Bool.false_eq_true, if_false]
      have hkb : k ≠ b.qId := hb ▸ h
      calc answersMapFrom init (rest.filter (fun b => b.qId != key)) k
          = answersMapFrom init rest k := ih init
        _ = answersMapFrom (answersMapStep init b) rest k := by
            apply answersMapFrom_agree
            simp [answersMapStep, hkb]
    · rw [List.filter_cons]
      have hfb : (b.qId != key) = true := by simp [hb]
      simp only [hfb, if_true]
      show answersMapFrom (answersMapStep init b) (rest.filter (fun b => b.qId != key)) k =
        answersMapFrom (answersMapStep init b) rest k
      exact ih (answersMapStep init b)

theorem findTest_appendResult (tests : List Test) (id id2 : String) (sub : Submission) :
    (findTest (appendResult tests id sub) id2).map Test.questions =
    (findTest tests id2).map Test.questions := by
  induction tests with
  | nil => rfl
  | cons t rest ih =>
    by_cases h : t.id = id
    · simp only [appendResult, if_pos h, findTest, List.find?]
      by_cases h2 : (t.id == id2) = true
      · simp [h2]
      · simp only [Bool.not_eq_true] at h2
        simp [h2]
    · simp only [appendResult, if_neg h, findTest, List.find?]
      by_cases h2 : (t.id == id2) = true
      · simp [h2]
      · simp only [Bool.not_eq_true] at h2
        simp only [h2]
        exact ih

theorem normalizeQuestionsFrom_length (nowTag : String) (j : Nat) (qs : List Json) :
    (normalizeQuestionsFrom nowTag j qs).length = qs.length := by
  induction qs generalizing j with
  | nil => rfl
  | cons a rest ih => simp [normalizeQuestionsFrom, ih]

theorem normalizeQuestions_length (nowTag : String) (qs : List Json) :
    (normalizeQuestions nowTag qs).length = qs.length :=
  normalizeQuestionsFrom_length nowTag 0 qs

theorem computeScore_eq_round (cc qc : ℕ) :
    (computeScore cc qc : ℤ) = round ((100 * (cc : ℚ)) / ((max 1 qc : ℕ) : ℚ)) := by
  set m : ℕ := max 1 qc with hm
  have hm0 : 0 < m := lt_of_lt_of_le Nat.zero_lt_one (le_max_left 1 qc)
  have hmQ : ((m : ℚ)) ≠ 0 := Nat.cast_ne_zero.mpr hm0.ne'
  set d : ℕ := 200 * cc + m with hd
  set D : ℕ := 2 * m with hD
  have hD0 : 0 < D := by omega
  have hDQ : (0 : ℚ) < (D : ℚ) := by exact_mod_cast hD0
  have key : ((d / D : ℕ) : ℤ) = ⌊((d : ℚ)) / ((D : ℚ))⌋ := by
    symm
    rw [Int.floor_eq_iff]
    constructor
    · rw [le_div_iff₀ hDQ]
      exact_mod_cast Nat.div_mul_le_self d D
    · rw [div_lt_iff₀ hDQ]
      have hnat : d < (d / D + 1) * D := by
        have h1 := Nat.div_add_mod d D
        have h2 := Nat.mod_lt d hD0
        calc d = D * (d / D) + d % D := h1.symm
          _ < D * (d / D) + D := by omega
          _ = (d / D + 1) * D := by ring
      push_cast
      exact_mod_cast hnat
  have harith : (100 * (cc : ℚ)) / (m : ℚ) + 1 / 2 = ((d : ℚ)) / ((D : ℚ)) := by
    rw [hd, hD]
    push_cast
    field_simp
    ring
  have hcs : computeScore cc qc = d / D := rfl
  rw [hcs, round_eq, harith]
  exact key

/-! ### Claim theorems -/

/-- Claim C1: for every stored test and every submitted answer set, the
submission's score equals `round(100 * countCorrect / max(1, questionCount))`
(with the rounding of `Math.round`, ties toward positive infinity); a test
with zero questions scores 0 with no division error, and the stored
submission carries exactly this score. -/
theorem score_round_formula :
    (∀ (questions : List Question) (answers : List SubmitAnswer),
      ((score questions answers : ℤ) =
        round ((100 * ((correctCount (resultAnswers questions answers)) : ℚ)) /
          ((max 1 questions.length : ℕ) : ℚ)))) ∧
    (∀ (questions : List Question) (answers : List SubmitAnswer),
      questions = [] → score questions answers = 0) ∧
    (∀ (subId ts : String) (req : SubmitRequest) (questions : List Question),
      (mkSubmission subId ts req questions).score = score questions req.answers) := by
  refine ⟨fun qs ans => computeScore_eq_round _ _, fun qs ans h => ?_, fun _ _ _ _ => rfl⟩
  subst h
  simp [score, resultAnswers, correctCount, computeScore]

/-- Witness for C1 at concrete inputs: the empty test scores 0, and the
two-question sample test satisfies the rounding formula. -/
theorem score_round_formula_witness :
    score [] [] = 0 ∧
    ((score sampleTest.questions sampleReq.answers : ℤ) =
      round ((100 * ((correctCount (resultAnswers sampleTest.questions sampleReq.answers)) : ℚ)) /
        ((max 1 sampleTest.questions.length : ℕ) : ℚ))) :=
  ⟨score_round_formula.2.1 [] [] rfl,
   score_round_formula.1 sampleTest.questions sampleReq.answers⟩

/-- Claim C2: the created submission's answers sequence has exactly one
entry per stored question, in the test's question order, with matching
question ids. -/
theorem submission_answers_align :
    ∀ (tests : List Test) (testId subId ts : String) (req : SubmitRequest)
      (test : Test) (st : List Test) (sub : Submission) (sc : Nat),
      findTest tests testId = some test →
      submit tests testId subId ts req = Except.ok (st, sub, sc) →
      sub.answers.length = test.questions.length ∧
      sub.answers.map ResultAnswer.qId = test.questions.map Question.id := by
  intro tests testId subId ts req test st sub sc hfind hsub
  unfold submit at hsub
  rw [hfind] at hsub
  simp only [Except.ok.injEq, Prod.mk.injEq] at hsub
  obtain ⟨-, hsub2, -⟩ := hsub
  subst hsub2
  constructor
  · simp [mkSubmission, resultAnswers]
  · simp [mkSubmission, resultAnswers, List.map_map, Function.comp, gradeQuestion]

/-- Witness for C2: the sample submission against the sample test. -/
theorem submission_answers_align_witness :
    sampleSub.answers.length = sampleTest.questions.length ∧
    sampleSub.answers.map ResultAnswer.qId = sampleTest.questions.map Question.id :=
  submission_answers_align [sampleTest] ("t1") ("s1") ("ts1") sampleReq sampleTest
    sampleStore1 sampleSub sampleSub.score rfl rfl

/-- Counterexample to claim C3 as stated: a stored question whose lenient
`correctIndex` is the number `-1` (which the create normalization persists
unchanged) is graded `correct == true` when the learner leaves it
unanswered, because the `-1` no-selection sentinel equals the stored
`correctIndex`.  So "recorded with correct == false" fails for some stored
test. -/
theorem noSelection_claim_counterexample :
    (submit [badTest] ("t1") ("s1") ("ts") emptyReq).toOption.map
      (fun o => o.2.1.answers.map (fun r => (r.selectedIndex, r.correct))) =
    some [((-1 : Int), true)] := rfl

/-- Claim C3, amended: a question with no entry in the request's answers is
recorded with `selectedIndex == -1` and appears in the submission's graded
answers; it is recorded `correct == false` provided its stored
`correctIndex` is not itself the number `-1` (the only value that can
collide with the no-selection sentinel, reachable only through out-of-range
generator output). -/
theorem noSelection_sentinel :
    ∀ (questions : List Question) (answers : List SubmitAnswer) (q : Question),
      q ∈ questions → (∀ a ∈ answers, a.qId ≠ q.id) →
      (gradeQuestion (answersMap answers) q).selectedIndex = -1 ∧
      gradeQuestion (answersMap answers) q ∈ resultAnswers questions answers ∧
      (q.correctIndex ≠ some (-1) →
        (gradeQuestion (answersMap answers) q).correct = false) := by
  intro qs ans q hq hno
  have hmap : answersMap ans q.id = none := answersMapFrom_no_key ans _ q.id hno
  refine ⟨by simp [gradeQuestion, hmap], List.mem_map_of_mem _ hq, ?_⟩
  intro hne
  simp only [gradeQuestion, hmap]
  cases hci : q.correctIndex with
  | none => simp
  | some n =>
    have hn : n ≠ -1 := fun hcontra => hne (by rw [hci, hcontra])
    simp only [Option.getD_some, Option.getD_none, decide_eq_false_iff_not]
    omega

/-- Witness for the amended C3: the sample question, left unanswered, is
recorded with the -1 sentinel and graded incorrect. -/
theorem noSelection_sentinel_witness :
    (gradeQuestion (answersMap []) sampleQ1).selectedIndex = -1 ∧
    gradeQuestion (answersMap []) sampleQ1 ∈ resultAnswers [sampleQ1] [] ∧
    (gradeQuestion (answersMap []) sampleQ1).correct = false := by
  have h := noSelection_sentinel [sampleQ1] [] sampleQ1 (by simp) (by simp)
  exact ⟨h.1, h.2.1, h.2.2 (by decide)⟩

/-- Claim C4: the defensive parser strips fence delimiters, extracts the
substring between the first opening and last closing brace or bracket, and
parses the candidate; an empty response and every response whose extracted
candidate the parser rejects yield `null`, and the create operation then
fails with the generation parse error, producing no value and storing no
test. -/
theorem safelyParse_failure_gives_error :
    ∀ (p : String → Option Json) (text : String),
      safelyParseJsonFromText p ("") = none ∧
      (text ≠ "" → safelyParseJsonFromText p text = p (extractCandidate text)) ∧
      extractCandidate text =
        String.mk (sliceToLastClose (sliceFromFirstOpen
          (jsTrim (removeTriple (removeFences text.toList))))) ∧
      (p (extractCandidate text) = none → safelyParseJsonFromText p text = none) ∧
      (∀ (gen : Option String) (idTag nowTag createdAt : String) (store : List GenTest)
         (name srcText rawOut : String),
         gen = some rawOut → safelyParseJsonFromText p rawOut = none →
         name ≠ "" → srcText ≠ "" →
         createTest p gen idTag nowTag createdAt store name srcText =
           Except.error CreateError.parseError) := by
  intro p text
  refine ⟨rfl, fun h => by simp [safelyParseJsonFromText, h], rfl, ?_, ?_⟩
  · intro hp
    by_cases h : text = ""
    · simp [safelyParseJsonFromText, h]
    · simp [safelyParseJsonFromText, h, hp]
  · intro gen idTag nowTag createdAt store name srcText rawOut hgen hparse hname htext
    subst hgen
    simp [createTest, hname, htext, hparse]

/-- Witness for C4: a parser that always fails makes the parse of any text
yield `null` and makes the create operation fail with the parse error. -/
theorem safelyParse_failure_gives_error_witness :
    safelyParseJsonFromText pNone ("abc") = none ∧
    createTest pNone (some ("abc")) ("i1") ("n1") ("c1") [] ("nm") ("tx") =
      Except.error CreateError.parseError := by
  have h := safelyParse_failure_gives_error pNone ("abc")
  refine ⟨h.2.2.2.1 rfl, ?_⟩
  exact h.2.2.2.2 (some ("abc")) ("i1") ("n1") ("c1") [] ("nm") ("tx") ("abc")
    rfl (h.2.2.2.1 rfl) (by decide) (by decide)

/-- Claim C5: normalization takes the question text from `prompt` or its
alias `question`, the choice list from `choices` or its alias `options`,
assigns the fallback identifier when none was supplied, coerces a missing
or non-numeric `correctIndex` to 0 while keeping any numeric value (even
out of range) unchanged, and rejects no candidate. -/
theorem normalization_lenient :
    ∀ (nowTag : String) (i : Nat) (q : Json),
      ((q.getField ("prompt")).truthy = true →
        (normalizeQuestion nowTag i q).prompt = q.getField ("prompt")) ∧
      ((q.getField ("prompt")).truthy = false → (q.getField ("question")).truthy = true →
        (normalizeQuestion nowTag i q).prompt = q.getField ("question")) ∧
      ((q.getField ("choices")).truthy = true →
        (normalizeQuestion nowTag i q).choices = q.getField ("choices")) ∧
      ((q.getField ("choices")).truthy = false → (q.getField ("options")).truthy = true →
        (normalizeQuestion nowTag i q).choices = q.getField ("options")) ∧
      ((q.getField ("id")).truthy = false →
        (normalizeQuestion nowTag i q).id = Json.str (fallbackId nowTag i)) ∧
      (∀ n : Int, q.getField ("correctIndex") = Json.num n →
        (normalizeQuestion nowTag i q).correctIndex = Json.num n) ∧
      ((∀ n : Int, q.getField ("correctIndex") ≠ Json.num n) →
        (normalizeQuestion nowTag i q).correctIndex = Json.num 0) ∧
      (∀ qs : List Json, (normalizeQuestions nowTag qs).length = qs.length) := by
  intro nowTag i q
  refine ⟨?_, ?_, ?_, ?_, ?_, ?_, ?_, fun qs => normalizeQuestions_length nowTag qs⟩
  · intro h
    simp [normalizeQuestion, jsOr, h]
  · intro h1 h2
    simp [normalizeQuestion, jsOr, h1, h2]
  · intro h
    simp [normalizeQuestion, jsOr, h]
  · intro h1 h2
    simp [normalizeQuestion, jsOr, h1, h2]
  · intro h
    simp [normalizeQuestion, jsOr, h]
  · intro n h
    simp [normalizeQuestion, h]
  · intro h
    cases hci : q.getField ("correctIndex") with
    | num n => exact absurd hci (h n)
    | null => simp [normalizeQuestion, hci]
    | bool b => simp [normalizeQuestion, hci]
    | str s => simp [normalizeQuestion, hci]
    | arr elems => simp [normalizeQuestion, hci]
    | obj fields => simp [normalizeQuestion, hci]

/-- Witness for C5 at the specification's concrete lenient-parse scenario:
a candidate using the `question` alias, two choices, no id, and the
out-of-range `correctIndex` 5 is normalized with the alias text, the
fallback id, and the index 5 stored unchanged; nothing is rejected. -/
theorem normalization_lenient_witness :
    (normalizeQuestion ("tg") 0 aliasCand).prompt = Json.str ("Q1") ∧
    (normalizeQuestion ("tg") 0 aliasCand).correctIndex = Json.num 5 ∧
    (normalizeQuestion ("tg") 0 aliasCand).id = Json.str (fallbackId ("tg") 0) ∧
    (normalizeQuestions ("tg") [aliasCand]).length = 1 := by
  have h := normalization_lenient ("tg") 0 aliasCand
  exact ⟨(h.2.1 rfl rfl).trans rfl, h.2.2.2.2.2.1 5 rfl, h.2.2.2.2.1 rfl,
    h.2.2.2.2.2.2.2 [aliasCand]⟩

/-- Counterexample to claim C6 as stated: a generator response that parses
to a questions array with zero items does NOT fail with an
EmptyGenerationError — the create handler stores a test with zero questions
and reports question count 0. -/
theorem createTest_zero_questions_counterexample :
    (createTest pEmptyQuestions (some ("raw")) ("i1") ("n1") ("c1") [] ("name") ("text")).toOption.map
      (fun o => (o.1.map (fun t => t.questions.length), o.2.questionCount)) =
    some ([0], 0) := rfl

/-- Claim C6, amended: for every create request whose generator response
parses successfully to a truthy value carrying a questions array, the
create succeeds and stores exactly one new test whose question sequence
length equals the number of parsed items — including zero items, which
stores an empty test rather than failing. -/
theorem createTest_stores_parsed_questions :
    ∀ (p : String → Option Json) (gen : Option String) (idTag nowTag createdAt : String)
      (store : List GenTest) (name text rawOut : String) (parsed : Json) (qs : List Json),
      name ≠ "" → text ≠ "" → gen = some rawOut →
      safelyParseJsonFromText p rawOut = some parsed →
      parsed.truthy = true →
      parsed.getField ("questions") = Json.arr qs →
      createTest p gen idTag nowTag createdAt store name text =
        Except.ok (store ++
          [{ id := "test_" ++ idTag, name := name, createdAt := createdAt,
             sourceText := text, questions := normalizeQuestions nowTag qs }],
          { id := "test_" ++ idTag, name := name, createdAt := createdAt,
            questionCount := (normalizeQuestions nowTag qs).length }) ∧
      (normalizeQuestions nowTag qs).length = qs.length := by
  intro p gen idTag nowTag createdAt store name text rawOut parsed qs
  intro hname htext hgen hparse htruthy hqs
  subst hgen
  constructor
  · simp [createTest, hname, htext, hparse, htruthy, hqs]
  · exact normalizeQuestions_length nowTag qs

/-- Witness for the amended C6: the empty-questions response stores an
empty test and succeeds. -/
theorem createTest_stores_parsed_questions_witness :
    createTest pEmptyQuestions (some ("raw")) ("i1") ("n1") ("c1") [] ("name") ("text") =
      Except.ok ([] ++
        [{ id := "test_" ++ "i1", name := "name", createdAt := "c1",
           sourceText := "text", questions := normalizeQuestions ("n1") [] }],
        { id := "test_" ++ "i1", name := "name", createdAt := "c1",
          questionCount := (normalizeQuestions ("n1") []).length }) ∧
    (normalizeQuestions ("n1") []).length = 0 := by
  have h := createTest_stores_parsed_questions pEmptyQuestions (some ("raw"))
    ("i1") ("n1") ("c1") [] ("name") ("text") ("raw")
    (Json.obj [("questions", Json.arr [])]) []
    (by decide) (by decide) rfl rfl rfl rfl
  exact ⟨h.1, h.2⟩

/-- Counterexample to claim C7 as stated: the justify handler returns the
collaborator's parsed justifications verbatim, so a response justifying a
stale id makes the returned justifications contain an entry whose qId is
not present in the test — contradicting "at most entries for qIds present
in the Test". -/
theorem justify_passthrough_counterexample :
    justify pGhost genSome [c7Test] ("t1") qIdsC7 = Except.ok [ghostJust] ∧
    c7Test.questions.map questionIdJson = [Json.str ("q1")] ∧
    ¬ (ghostJust.getField ("qId") ∈ c7Test.questions.map questionIdJson) := by
  refine ⟨rfl, rfl, ?_⟩
  intro hmem
  rw [show c7Test.questions.map questionIdJson = [Json.str ("q1")] from rfl] at hmem
  rw [show ghostJust.getField ("qId") = Json.str ("ghost") from rfl] at hmem
  rw [List.mem_singleton] at hmem
  simp at hmem

/-- Claim C7, amended: for every justify request with non-empty qIds
against an existing test, stale qIds are dropped silently — the questions
shown to the collaborator are exactly the stored questions whose id occurs
in qIds, removing the stale ids changes nothing, and no error arises from
them; the returned justifications are the collaborator's parsed output
passed through verbatim, so every returned entry carries the id of a
stored question provided the collaborator echoes only the ids it was
shown. -/
theorem justify_stale_ids_dropped :
    ∀ (p : String → Option Json) (gen : List Question → Option String)
      (tests : List Test) (testId : String) (qIds : List String) (test : Test),
      qIds ≠ [] → findTest tests testId = some test →
      (∀ q ∈ selectedQuestions test qIds, q ∈ test.questions ∧ q.id ∈ qIds) ∧
      (justify p gen tests testId qIds =
        match gen (selectedQuestions test qIds) with
        | none => Except.error JustifyError.generationFailed
        | some raw => parseJustifications p raw) ∧
      (selectedQuestions test
          (qIds.filter (fun i => (test.questions.map Question.id).contains i)) =
        selectedQuestions test qIds) ∧
      (∀ js : List Json, justify p gen tests testId qIds = Except.ok js →
        (∀ j ∈ js, j.getField ("qId") ∈ (selectedQuestions test qIds).map questionIdJson) →
        ∀ j ∈ js, j.getField ("qId") ∈ test.questions.map questionIdJson) := by
  intro p gen tests testId qIds test hne hfind
  refine ⟨?_, ?_, ?_, ?_⟩
  · intro q hqsel
    rw [selectedQuestions, List.mem_filter] at hqsel
    refine ⟨hqsel.1, ?_⟩
    have := hqsel.2
    simpa using this
  · have hempty : qIds.isEmpty = false := by
      cases qIds with
      | nil => exact absurd rfl hne
      | cons a l => rfl
    simp [justify, hempty, hfind]
  · unfold selectedQuestions
    apply List.filter_congr
    intro q hq
    have hid : q.id ∈ test.questions.map Question.id := List.mem_map_of_mem Question.id hq
    simp [hid]
    exact fun _ => ⟨q, hq, rfl⟩
  · intro js hok hsub j hj
    obtain ⟨q, hqsel, hqe⟩ := List.mem_map.mp (hsub j hj)
    have hq : q ∈ test.questions := (List.mem_filter.mp hqsel).1
    exact hqe ▸ List.mem_map_of_mem questionIdJson hq

/-- Witness for the amended C7: with the collaborator echoing only the
valid id it was shown, removing the stale id from the request changes the
selected questions not at all, and the returned entry's qId is the id of a
stored question. -/
theorem justify_stale_ids_dropped_witness :
    selectedQuestions c7Test
        (qIdsC7.filter (fun i => (c7Test.questions.map Question.id).contains i)) =
      selectedQuestions c7Test qIdsC7 ∧
    validJust.getField ("qId") ∈ c7Test.questions.map questionIdJson := by
  have h := justify_stale_ids_dropped pValid genSome [c7Test] ("t1") qIdsC7 c7Test
    (by decide) rfl
  refine ⟨h.2.2.1, ?_⟩
  have hok : justify pValid genSome [c7Test] ("t1") qIdsC7 = Except.ok [validJust] := rfl
  refine h.2.2.2 [validJust] hok ?_ validJust (List.mem_singleton.mpr rfl)
  intro j hj
  rw [List.mem_singleton] at hj
  subst hj
  rw [show (selectedQuestions c7Test qIdsC7).map questionIdJson = [Json.str ("q1")] from rfl]
  rw [show validJust.getField ("qId") = Json.str ("q1") from rfl]
  exact List.mem_singleton.mpr rfl

/-- Claim C8: caller-supplied `correct` or `score` fields in the submit
request body are ignored — two requests whose answers agree on `qId` and
`selectedIndex` (differing arbitrarily in the caller-supplied
correctness/score fields, which the handler never reads) produce identical
per-question correct flags and identical scores, recomputed from the
stored correct indices. -/
theorem score_nonspoofable :
    ∀ (questions : List Question) (r1 r2 : SubmitRequest),
      r1.answers.map (fun a => (a.qId, a.selectedIndex)) =
        r2.answers.map (fun a => (a.qId, a.selectedIndex)) →
      score questions r1.answers = score questions r2.answers ∧
      (resultAnswers questions r1.answers).map ResultAnswer.correct =
        (resultAnswers questions r2.answers).map ResultAnswer.correct ∧
      (∀ subId ts : String, (mkSubmission subId ts r1 questions).score =
        (mkSubmission subId ts r2 questions).score) := by
  intro qs r1 r2 h
  have hmap : answersMap r1.answers = answersMap r2.answers :=
    answersMapFrom_proj _ _ _ h
  have hres : resultAnswers qs r1.answers = resultAnswers qs r2.answers := by
    unfold resultAnswers
    rw [hmap]
  have hsc : score qs r1.answers = score qs r2.answers := by
    unfold score
    rw [hres]
  exact ⟨hsc, by rw [hres], fun _ _ => hsc⟩

/-- Witness for C8: the spoofing request, which adds `correct`/`score`
fields to the sample request, yields the same score and the same correct
flags. -/
theorem score_nonspoofable_witness :
    score sampleTest.questions sampleReq.answers = score sampleTest.questions spoofReq.answers ∧
    (resultAnswers sampleTest.questions sampleReq.answers).map ResultAnswer.correct =
      (resultAnswers sampleTest.questions spoofReq.answers).map ResultAnswer.correct := by
  have h := score_nonspoofable sampleTest.questions sampleReq spoofReq rfl
  exact ⟨h.1, h.2.1⟩

/-- Claim C9: grading is idempotent — submitting the identical answer set
twice against the same test id produces two stored submissions with
identical score and identical per-question correct flags; the score is a
pure function of the test's questions and the answers, and appending the
first submission to the store does not change the questions the second
grading sees. -/
theorem grading_idempotent :
    ∀ (tests : List Test) (testId sid1 ts1 sid2 ts2 : String) (req : SubmitRequest)
      (st1 st2 : List Test) (sub1 sub2 : Submission) (sc1 sc2 : Nat),
      submit tests testId sid1 ts1 req = Except.ok (st1, sub1, sc1) →
      submit st1 testId sid2 ts2 req = Except.ok (st2, sub2, sc2) →
      sub1.score = sub2.score ∧
      sub1.answers.map ResultAnswer.correct = sub2.answers.map ResultAnswer.correct := by
  intro tests testId sid1 ts1 sid2 ts2 req st1 st2 sub1 sub2 sc1 sc2 h1 h2
  unfold submit at h1 h2
  cases hf1 : findTest tests testId with
  | none =>
    rw [hf1] at h1
    exact absurd h1 (by simp)
  | some test1 =>
    rw [hf1] at h1
    simp only [Except.ok.injEq, Prod.mk.injEq] at h1
    obtain ⟨hst1, hsub1, -⟩ := h1
    cases hf2 : findTest st1 testId with
    | none =>
      rw [hf2] at h2
      exact absurd h2 (by simp)
    | some test2 =>
      rw [hf2] at h2
      simp only [Except.ok.injEq, Prod.mk.injEq] at h2
      obtain ⟨-, hsub2, -⟩ := h2
      have hmapq := findTest_appendResult tests testId testId
        (mkSubmission sid1 ts1 req test1.questions)
      rw [hst1, hf1, hf2] at hmapq
      have hq : test2.questions = test1.questions := by
        simpa using hmapq
      subst hsub1
      subst hsub2
      constructor
      · show score test1.questions req.answers = score test2.questions req.answers
        rw [hq]
      · show (resultAnswers test1.questions req.answers).map ResultAnswer.correct =
          (resultAnswers test2.questions req.answers).map ResultAnswer.correct
        rw [hq]

/-- Witness for C9: submitting the sample request twice in sequence yields
two submissions with equal score and equal correct flags. -/
theorem grading_idempotent_witness :
    sampleSub.score = sampleSub2.score ∧
    sampleSub.answers.map ResultAnswer.correct =
      sampleSub2.answers.map ResultAnswer.correct :=
  grading_idempotent [sampleTest] ("t1") ("s1") ("ts1") ("s2") ("ts2") sampleReq
    sampleStore1 sampleStore2 sampleSub sampleSub2 sampleSub.score sampleSub2.score
    rfl rfl

/-- Claim C10: when the request's answers list holds several entries for
the same qId, the left-to-right fold with overwrite makes the last entry's
selection win; removing the earlier duplicates changes neither the graded
answers nor the score. -/
theorem last_answer_wins :
    ∀ (questions : List Question) (xs : List SubmitAnswer) (a : SubmitAnswer)
      (ys : List SubmitAnswer),
      (∀ b ∈ ys, b.qId ≠ a.qId) →
      answersMap (xs ++ a :: ys) a.qId = a.selectedIndex ∧
      resultAnswers questions (xs ++ a :: ys) =
        resultAnswers questions (xs.filter (fun b => b.qId != a.qId) ++ a :: ys) ∧
      score questions (xs ++ a :: ys) =
        score questions (xs.filter (fun b => b.qId != a.qId) ++ a :: ys) := by
  intro qs xs a ys hys
  have hlast : ∀ init : String → Option Int,
      answersMapFrom init (a :: ys) a.qId = a.selectedIndex := by
    intro init
    show answersMapFrom (answersMapStep init a) ys a.qId = a.selectedIndex
    rw [answersMapFrom_no_key ys _ _ hys]
    simp [answersMapStep]
  have hpoint : ∀ k, answersMap (xs ++ a :: ys) k =
      answersMap (xs.filter (fun b => b.qId != a.qId) ++ a :: ys) k := by
    intro k
    rw [answersMap, answersMapFrom_append, answersMap, answersMapFrom_append]
    by_cases hk : k = a.qId
    · subst hk
      rw [hlast, hlast]
    · apply answersMapFrom_agree
      exact (answersMapFrom_filter_ne xs _ a.qId k hk).symm
  have hsel : answersMap (xs ++ a :: ys) a.qId = a.selectedIndex := by
    rw [answersMap, answersMapFrom_append]
    exact hlast _
  have hres : resultAnswers qs (xs ++ a :: ys) =
      resultAnswers qs (xs.filter (fun b => b.qId != a.qId) ++ a :: ys) :=
    resultAnswers_congr qs _ _ (fun q _ => hpoint q.id)
  refine ⟨hsel, hres, ?_⟩
  unfold score
  rw [hres]

/-- Witness for C10: with two entries for the same question id, the later
selection wins and dropping the earlier entry changes nothing. -/
theorem last_answer_wins_witness :
    answersMap [dupA, dupB] ("q1") = dupB.selectedIndex ∧
    resultAnswers sampleTest.questions [dupA, dupB] =
      resultAnswers sampleTest.questions ([dupA].filter (fun b => b.qId != dupB.qId) ++ [dupB]) ∧
    score sampleTest.questions [dupA, dupB] =
      score sampleTest.questions ([dupA].filter (fun b => b.qId != dupB.qId) ++ [dupB]) := by
  have h := last_answer_wins sampleTest.questions [dupA] dupB [] (by simp)
  exact ⟨h.1, h.2.1, h.2.2⟩

end KT
